import Mathlib

/-!
Shallow embedding of the ArgoCD add-on (src/lib/addons/argocd/index.ts).

The add-on has four operations:
- `deploy` builds the Helm chart installation request for the ArgoCD
  controller, optionally embedding a serialized repository-credentials
  declaration in the chart values;
- `postDeploy` optionally kicks off secret materialization and submits the
  bootstrap Application manifest;
- `createSecretKey` (async) creates a service account, grants it a secrets
  policy, fetches the credentials secret and submits a Kubernetes Secret
  manifest;
- `getSecretValue` (async) fetches a secret string from the secrets service.

External collaborators (the AWS secrets service, the JavaScript built-in
`JSON.parse`, the `yaml` library) are modelled as oracle functions carried in
an `ExternalWorld` record, or — for the yaml serializer — as an executable
function restricted to the one value shape the add-on passes it.

JavaScript semantics that matter and are modelled explicitly:
- truthiness of optional strings (`""` and `undefined` are falsy);
- object spread `\x7b...o1, ...o2\x7d`, which keeps the keys of `o1` in order with
  values overridden by `o2`, followed by the new keys of `o2`;
- `postDeploy` calls the async `createSecretKey` WITHOUT awaiting it, so the
  effects of `createSecretKey` occurring before its first `await` run
  synchronously, while the rest runs after `postDeploy` has already returned.
  A run is therefore split into `preAwaitEffects` (service-account creation,
  policy grant) and `postAwaitEffects` (the Secret manifest submission).
-/

namespace ArgoCD

/-- credentialsType: "USERNAME" | "TOKEN" | "SSH". -/
inductive CredentialsType
  | USERNAME
  | TOKEN
  | SSH
deriving DecidableEq, Repr

/-- Interface ArgoApplicationRepository from the source; optional fields are
`Option`, `none` meaning the key is absent. -/
structure ArgoApplicationRepository where
  repoUrl : String
  path : Option String := none
  name : Option String := none
  credentialsSecretName : Option String := none
  credentialsType : Option CredentialsType := none
deriving DecidableEq, Repr

/-- Interface ArgoCDAddOnProps. `namespc` embeds the source's `namespace`
field (a Lean keyword). -/
structure ArgoCDAddOnProps where
  namespc : Option String := none
  bootstrapRepo : Option ArgoApplicationRepository := none
deriving DecidableEq, Repr

/-- const argoDefaults = \x7b namespace: "argocd" \x7d. -/
def argoDefaults : ArgoCDAddOnProps := { namespc := some "argocd" }

/-- Constructor: this.options = \x7b ...argoDefaults, ...props \x7d. -/
def mkOptions (props : Option ArgoCDAddOnProps) : ArgoCDAddOnProps :=
  match props with
  | none => argoDefaults
  | some p =>
    { namespc := p.namespc <|> argoDefaults.namespc
      bootstrapRepo := p.bootstrapRepo <|> argoDefaults.bootstrapRepo }

/-- JavaScript truthiness of an optional string: absent and "" are falsy. -/
def jsTruthy : Option String → Bool
  | some s => !(s == "")
  | none => false

/-- JavaScript object spread \x7b ...o1, ...o2 \x7d on string-valued objects:
keys of o1 in their order (values overridden by o2 where present), then the
keys of o2 not already in o1, in o2 order. -/
def jsSpread (o1 o2 : List (String × String)) : List (String × String) :=
  (o1.map fun kv =>
    match o2.lookup kv.1 with
    | some v => (kv.1, v)
    | none => kv)
  ++ o2.filter fun kv => (o1.lookup kv.1).isNone

/-- The fixed sshPrivateKeySecret reference embedded in the chart values. -/
structure SshPrivateKeySecretRef where
  name : String
  key : String
deriving DecidableEq, Repr

/-- One element of the repository-credentials list serialized into the chart
values. -/
structure RepoCredEntry where
  url : String
  sshPrivateKeySecret : SshPrivateKeySecretRef
deriving DecidableEq, Repr

/-- Models the external yaml library's `stringify`, restricted to the
list-of-repository-credentials shape the add-on passes it (block style, two
space indent, trailing newline). -/
def yamlStringifyRepoList (entries : List RepoCredEntry) : String :=
  String.join (entries.map fun e =>
    "- url: " ++ e.url
      ++ "\n  sshPrivateKeySecret:\n    name: " ++ e.sshPrivateKeySecret.name
      ++ "\n    key: " ++ e.sshPrivateKeySecret.key ++ "\n")

/-- The chart values fragment the add-on builds:
server.serviceAccount.create and server.config.repositories. -/
structure HelmChartValues where
  serviceAccountCreate : Bool
  repositories : String
deriving DecidableEq, Repr

/-- The Helm chart installation request passed to cluster.addHelmChart. -/
structure HelmChartConfig where
  chart : String
  release : String
  repository : String
  version : String
  namespc : Option String
  values : HelmChartValues
deriving DecidableEq, Repr

/-- ArgoCDAddOn.deploy: builds the chart-install request, serializing the
single-element repository-credentials declaration when bootstrapRepo is set
and the empty string otherwise. -/
def deploy (options : ArgoCDAddOnProps) : HelmChartConfig :=
  let repo : String :=
    match options.bootstrapRepo with
    | some r =>
      yamlStringifyRepoList
        [{ url := r.repoUrl
           sshPrivateKeySecret := { name := "bootstrap-repo-secret1", key := "sshPrivateKey" } }]
    | none => ""
  { chart := "argo-cd"
    release := "ssp-addon"
    repository := "https://argoproj.github.io/argo-helm"
    version := "3.10.0"
    namespc := options.namespc
    values := { serviceAccountCreate := false, repositories := repo } }

/-- Response of the secrets service: SecretString and/or SecretBinary. -/
structure SecretResponse where
  SecretString : Option String := none
  SecretBinary : Option (List Nat) := none
deriving DecidableEq, Repr

/-- The external collaborators: the secrets service (indexed by secret name
and region; `Except.error` is a transport/auth failure) and the JavaScript
built-in `JSON.parse` composed with own-enumerable-property extraction
(`Except.error` is the SyntaxError JSON.parse throws on invalid input). -/
structure ExternalWorld where
  secretFetch : String → String → Except String SecretResponse
  jsonParse : String → Except String (List (String × String))

/-- ArgoCDAddOn.getSecretValue: returns response.SecretString when truthy,
throws when the value is binary instead, returns "" when the response holds
neither, and re-raises transport errors after logging them. -/
def getSecretValue (world : ExternalWorld) (secretName : String) (region : String) :
    Except String String :=
  match world.secretFetch secretName region with
  | .error e => .error e
  | .ok response =>
    if jsTruthy response.SecretString then
      .ok (response.SecretString.getD "")
    else if response.SecretBinary.isSome then
      .error ("Invalid secret format for " ++ secretName
        ++ ". Expected string value, received binary.")
    else
      .ok ""

/-- Kubernetes object metadata as built by the add-on. -/
structure Metadata where
  name : String
  namespc : Option String
deriving DecidableEq, Repr

/-- spec.source of the Application document. -/
structure AppSource where
  helmValueFiles : List String
  path : Option String
  repoURL : String
  targetRevision : String
deriving DecidableEq, Repr

/-- spec.destination of the Application document. -/
structure AppDestination where
  namespc : String
  server : String
deriving DecidableEq, Repr

/-- The Application custom resource document. -/
structure ApplicationDoc where
  metadata : Metadata
  destination : AppDestination
  project : String
  source : AppSource
  syncAutomated : Bool
deriving DecidableEq, Repr

/-- The Kubernetes Secret document. -/
structure SecretDoc where
  metadata : Metadata
  labels : List (String × String)
  stringData : List (String × String)
deriving DecidableEq, Repr

/-- A manifest document submitted by the add-on. -/
inductive K8sDoc
  | application (d : ApplicationDoc)
  | secret (d : SecretDoc)
deriving DecidableEq, Repr

/-- A KubernetesManifest construction: construct id, document, flags, and
whether node.addDependency(this.chartNode) was recorded on it. -/
structure ManifestSubmission where
  id : String
  doc : K8sDoc
  overwrite : Bool
  prune : Bool
  skipValidation : Bool
  dependsOnChartNode : Bool
deriving DecidableEq, Repr

/-- Observable effects of the add-on on the cluster. -/
inductive Effect
  | addServiceAccount (id : String) (name : String) (namespc : Option String)
  | addManagedPolicy (policy : String)
  | submitManifest (m : ManifestSubmission)
deriving DecidableEq, Repr

/-- One run of the async createSecretKey, split at its single await point:
`preAwaitEffects` happen synchronously when it is invoked, `postAwaitEffects`
happen after the secrets lookup resolves; `outcome` is how its promise
settles. -/
structure CreateSecretKeyRun where
  preAwaitEffects : List Effect
  postAwaitEffects : List Effect
  outcome : Except String Unit
deriving Repr

/-- All effects of a createSecretKey run, in execution order. -/
def CreateSecretKeyRun.trace (r : CreateSecretKeyRun) : List Effect :=
  r.preAwaitEffects ++ r.postAwaitEffects

/-- ArgoCDAddOn.createSecretKey. Reads this.options.bootstrapRepo! (a
TypeError if absent), creates the argocd-server service account, attaches the
SecretsManagerReadWrite policy, awaits the secret value, branches on
credentialsType to build the stringData object, and submits the Secret
manifest with a dependency on the chart node. -/
def createSecretKey (options : ArgoCDAddOnProps) (world : ExternalWorld)
    (region : String) (secretName : String) : CreateSecretKeyRun :=
  match options.bootstrapRepo with
  | none =>
    { preAwaitEffects := []
      postAwaitEffects := []
      outcome := .error "TypeError: Cannot read properties of undefined" }
  | some appRepo =>
    let credentials : List (String × String) := [("url", appRepo.repoUrl)]
    let pre : List Effect :=
      [ .addServiceAccount "argo-cd-server" "argocd-server" options.namespc
      , .addManagedPolicy "SecretsManagerReadWrite" ]
    match getSecretValue world secretName region with
    | .error e => { preAwaitEffects := pre, postAwaitEffects := [], outcome := .error e }
    | .ok secretValue =>
      let credentialsResult : Except String (List (String × String)) :=
        match appRepo.credentialsType with
        | some .SSH => .ok (jsSpread credentials [("sshPrivateKey", secretValue)])
        | some .USERNAME =>
          match world.jsonParse secretValue with
          | .ok obj => .ok (jsSpread credentials obj)
          | .error e => .error e
        | some .TOKEN =>
          match world.jsonParse secretValue with
          | .ok obj => .ok (jsSpread credentials obj)
          | .error e => .error e
        | none => .ok credentials
      match credentialsResult with
      | .error e => { preAwaitEffects := pre, postAwaitEffects := [], outcome := .error e }
      | .ok creds =>
        { preAwaitEffects := pre
          postAwaitEffects :=
            [ .submitManifest
                { id := "argo-bootstrap-secret"
                  doc := .secret
                    { metadata :=
                        { name := appRepo.name.getD "bootstrap-repo-secret"
                          namespc := options.namespc }
                      labels := [("argocd.argoproj.io/secret-type", "repository")]
                      stringData := creds }
                  overwrite := true
                  prune := true
                  skipValidation := true
                  dependsOnChartNode := true } ]
          outcome := .ok () }

/-- The bootstrap Application manifest submission built in postDeploy. -/
def applicationSubmission (options : ArgoCDAddOnProps)
    (appRepo : ArgoApplicationRepository) : ManifestSubmission :=
  { id := "bootstrap-app"
    doc := .application
      { metadata :=
          { name := appRepo.name.getD "bootstrap-apps"
            namespc := options.namespc }
        destination := { namespc := "default", server := "https://kubernetes.default.svc" }
        project := "default"
        source :=
          { helmValueFiles := ["values.yaml"]
            path := appRepo.path
            repoURL := appRepo.repoUrl
            targetRevision := "HEAD" }
        syncAutomated := true }
    overwrite := true
    prune := true
    skipValidation := false
    dependsOnChartNode := true }

/-- Result of one postDeploy invocation. `syncEffects` occur during the
synchronous execution of postDeploy itself; `asyncEffects` occur afterwards
when the unawaited createSecretKey promise continues; `secretOutcome` is how
that promise settles (`none` when createSecretKey was not invoked). -/
structure PostDeployResult where
  syncEffects : List Effect
  asyncEffects : List Effect
  secretOutcome : Option (Except String Unit)
deriving Repr

/-- All effects of a postDeploy invocation, in execution order. -/
def PostDeployResult.trace (r : PostDeployResult) : List Effect :=
  r.syncEffects ++ r.asyncEffects

/-- ArgoCDAddOn.postDeploy. console.assert on teams only logs. Returns
immediately when bootstrapRepo is absent. When credentialsSecretName is
truthy it invokes createSecretKey WITHOUT await: the part of createSecretKey
before its await runs synchronously, then postDeploy submits the Application
manifest (with a dependency on the chart node) and returns; the rest of
createSecretKey runs afterwards. -/
def postDeploy (options : ArgoCDAddOnProps) (world : ExternalWorld)
    (region : String) (teams : Option (List Unit)) : PostDeployResult :=
  match options.bootstrapRepo with
  | none => { syncEffects := [], asyncEffects := [], secretOutcome := none }
  | some appRepo =>
    if jsTruthy appRepo.credentialsSecretName then
      let run := createSecretKey options world region (appRepo.credentialsSecretName.getD "")
      { syncEffects :=
          run.preAwaitEffects ++ [.submitManifest (applicationSubmission options appRepo)]
        asyncEffects := run.postAwaitEffects
        secretOutcome := some run.outcome }
    else
      { syncEffects := [.submitManifest (applicationSubmission options appRepo)]
        asyncEffects := []
        secretOutcome := none }

/-- The Application documents submitted in a list of effects. -/
def applicationDocs (trace : List Effect) : List ApplicationDoc :=
  trace.filterMap fun e =>
    match e with
    | .submitManifest m =>
      match m.doc with
      | .application d => some d
      | .secret _ => none
    | _ => none

/-- The Secret documents submitted in a list of effects. -/
def secretDocs (trace : List Effect) : List SecretDoc :=
  trace.filterMap fun e =>
    match e with
    | .submitManifest m =>
      match m.doc with
      | .secret d => some d
      | .application _ => none
    | _ => none

/-! Concrete sample inputs, used by counterexample/bug theorems and by the
witnesses of the universally quantified theorems. -/

/-- A bootstrap repository with SSH credentials. -/
def repoSsh : ArgoApplicationRepository :=
  { repoUrl := "git@example.com/apps"
    path := some "envs/dev"
    credentialsSecretName := some "my-secret"
    credentialsType := some .SSH }

/-- A bootstrap repository with TOKEN credentials. -/
def repoToken : ArgoApplicationRepository :=
  { repoUrl := "git@example.com/apps"
    credentialsSecretName := some "my-secret"
    credentialsType := some .TOKEN }

/-- Options holding the SSH bootstrap repository. -/
def optSsh : ArgoCDAddOnProps := { namespc := some "argocd", bootstrapRepo := some repoSsh }

/-- Options holding the TOKEN bootstrap repository. -/
def optToken : ArgoCDAddOnProps := { namespc := some "argocd", bootstrapRepo := some repoToken }

/-- Options with no bootstrap repository. -/
def optPlain : ArgoCDAddOnProps := { namespc := some "argocd" }

/-- A bootstrap repository with no credentials configured. -/
def repoNoCreds : ArgoApplicationRepository :=
  { repoUrl := "https://github.com/org/apps" }

/-- Options holding the credential-less bootstrap repository. -/
def optNoCreds : ArgoCDAddOnProps :=
  { namespc := some "argocd", bootstrapRepo := some repoNoCreds }

/-- A world in which the secrets service fails with an auth error. -/
def failWorld : ExternalWorld :=
  { secretFetch := fun _ _ => .error "AccessDeniedException"
    jsonParse := fun _ => .error "SyntaxError: Unexpected end of JSON input" }

/-- A world in which the secret is stored as a binary blob. -/
def binWorld : ExternalWorld :=
  { secretFetch := fun _ _ => .ok { SecretString := none, SecretBinary := some [7, 7, 7] }
    jsonParse := fun _ => .error "SyntaxError: Unexpected end of JSON input" }

/-- A world in which the secret is a plain SSH key string (not JSON). -/
def sshWorld : ExternalWorld :=
  { secretFetch := fun _ _ => .ok { SecretString := some "PRIVATE-KEY-PEM", SecretBinary := none }
    jsonParse := fun _ => .error "SyntaxError: Unexpected token" }

/-- A world in which the secret string parses as the JSON object with the
single field username=bot. -/
def tokenWorld : ExternalWorld :=
  { secretFetch := fun _ _ => .ok { SecretString := some "creds-json", SecretBinary := none }
    jsonParse := fun s => if s == "creds-json" then .ok [("username", "bot")]
      else .error "SyntaxError: Unexpected token" }

/-- C1 (code_bug evidence): with bootstrapRepo and credentialsSecretName set
and the secrets service failing, the createSecretKey promise settles with the
error, yet the Application manifest IS submitted (already in postDeploy's
synchronous effects, before the secret lookup can resolve), and no Secret
document is submitted. The claim (and the spec) says the secret sub-operation
is awaited and on its failure no Application document is submitted; the code
drops the promise instead. -/
theorem c1_secret_failure_still_submits_application :
    (postDeploy optSsh failWorld "us-east-1" (some [])).secretOutcome
        = some (.error "AccessDeniedException")
    ∧ applicationDocs (postDeploy optSsh failWorld "us-east-1" (some [])).trace
        = [{ metadata := { name := "bootstrap-apps", namespc := some "argocd" }
             destination := { namespc := "default", server := "https://kubernetes.default.svc" }
             project := "default"
             source :=
               { helmValueFiles := ["values.yaml"]
                 path := some "envs/dev"
                 repoURL := "git@example.com/apps"
                 targetRevision := "HEAD" }
             syncAutomated := true }]
    ∧ secretDocs (postDeploy optSsh failWorld "us-east-1" (some [])).trace = [] :=
  ⟨rfl, rfl, rfl⟩

/-- C2: with bootstrapRepo set, the Install phase puts under
server.config.repositories the YAML serialization of the single-element list
whose element is \x7b url: repoUrl, sshPrivateKeySecret: \x7b name:
"bootstrap-repo-secret1", key: "sshPrivateKey" \x7d \x7d — with those literals
regardless of credentialsSecretName and credentialsType — and with
bootstrapRepo absent the repositories value is the empty string. -/
theorem c2_install_repositories (options : ArgoCDAddOnProps) :
    (∀ r, options.bootstrapRepo = some r →
      (deploy options).values.repositories =
        yamlStringifyRepoList
          [{ url := r.repoUrl
             sshPrivateKeySecret :=
               { name := "bootstrap-repo-secret1", key := "sshPrivateKey" } }])
    ∧ (options.bootstrapRepo = none → (deploy options).values.repositories = "") := by
  constructor
  · intro r hr
    simp [deploy, hr]
  · intro hr
    simp [deploy, hr]

/-- Witness for c2_install_repositories at the SSH sample options (which set
credentialsSecretName = "my-secret" and credentialsType = SSH). -/
theorem c2_install_repositories_witness :
    (deploy optSsh).values.repositories =
      yamlStringifyRepoList
        [{ url := "git@example.com/apps"
           sshPrivateKeySecret :=
             { name := "bootstrap-repo-secret1", key := "sshPrivateKey" } }] :=
  (c2_install_repositories optSsh).1 repoSsh rfl

/-- C8: with bootstrapRepo absent, postDeploy is a no-op: no synchronous
effects, no asynchronous effects, and createSecretKey is never invoked. -/
theorem c8_no_bootstrap_repo_noop (options : ArgoCDAddOnProps)
    (world : ExternalWorld) (region : String) (teams : Option (List Unit))
    (h : options.bootstrapRepo = none) :
    (postDeploy options world region teams).syncEffects = []
    ∧ (postDeploy options world region teams).asyncEffects = []
    ∧ (postDeploy options world region teams).secretOutcome = none := by
  simp [postDeploy, h]

/-- Witness for c8_no_bootstrap_repo_noop at the plain sample options. -/
theorem c8_no_bootstrap_repo_noop_witness :
    (postDeploy optPlain sshWorld "us-east-1" (some [])).syncEffects = []
    ∧ (postDeploy optPlain sshWorld "us-east-1" (some [])).asyncEffects = []
    ∧ (postDeploy optPlain sshWorld "us-east-1" (some [])).secretOutcome = none :=
  c8_no_bootstrap_repo_noop optPlain sshWorld "us-east-1" (some []) rfl


/-- createSecretKey never submits an Application document, neither before nor
after its await point. -/
theorem createSecretKey_no_app_docs (options : ArgoCDAddOnProps) (world : ExternalWorld)
    (region : String) (secretName : String) :
    applicationDocs (createSecretKey options world region secretName).preAwaitEffects = []
    ∧ applicationDocs (createSecretKey options world region secretName).postAwaitEffects = [] := by
  unfold createSecretKey
  repeat' split
  all_goals simp_all [applicationDocs]

/-- Every manifest createSecretKey submits depends on the chart node. -/
theorem createSecretKey_deps (options : ArgoCDAddOnProps) (world : ExternalWorld)
    (region : String) (secretName : String) :
    ∀ m, Effect.submitManifest m ∈ (createSecretKey options world region secretName).preAwaitEffects
        ∨ Effect.submitManifest m ∈ (createSecretKey options world region secretName).postAwaitEffects →
      m.dependsOnChartNode = true := by
  unfold createSecretKey
  repeat' split
  all_goals simp_all

/-- Every Secret document createSecretKey submits is named
bootstrapRepo.name when set and "bootstrap-repo-secret" otherwise. -/
theorem createSecretKey_secret_names (options : ArgoCDAddOnProps) (world : ExternalWorld)
    (region : String) (secretName : String) (appRepo : ArgoApplicationRepository)
    (hrepo : options.bootstrapRepo = some appRepo) :
    ∀ d ∈ secretDocs (createSecretKey options world region secretName).trace,
      d.metadata.name = appRepo.name.getD "bootstrap-repo-secret" := by
  unfold createSecretKey CreateSecretKeyRun.trace
  repeat' split
  all_goals simp_all [secretDocs]

/-- C3: when the secrets service reports the stored value as binary rather
than string, createSecretKey fails with the error naming the secret and
stating that a string value was expected but binary was received, and submits
no Secret document. -/
theorem c3_binary_secret_fails (options : ArgoCDAddOnProps) (world : ExternalWorld)
    (region : String) (secretName : String) (appRepo : ArgoApplicationRepository)
    (resp : SecretResponse)
    (hrepo : options.bootstrapRepo = some appRepo)
    (hfetch : world.secretFetch secretName region = .ok resp)
    (hstr : resp.SecretString = none)
    (hbin : resp.SecretBinary.isSome = true) :
    (createSecretKey options world region secretName).outcome =
      .error ("Invalid secret format for " ++ secretName
        ++ ". Expected string value, received binary.")
    ∧ secretDocs (createSecretKey options world region secretName).trace = [] := by
  have hval : getSecretValue world secretName region =
      .error ("Invalid secret format for " ++ secretName
        ++ ". Expected string value, received binary.") := by
    simp [getSecretValue, hfetch, jsTruthy, hstr, hbin]
  simp [createSecretKey, CreateSecretKeyRun.trace, hrepo, hval, secretDocs]

/-- C4: with credentialsType USERNAME or TOKEN and a fetched secret string
that JSON.parse rejects, createSecretKey fails with the parse error and
submits no Secret document. -/
theorem c4_malformed_credentials_fails (options : ArgoCDAddOnProps) (world : ExternalWorld)
    (region : String) (secretName : String) (appRepo : ArgoApplicationRepository)
    (s e : String)
    (hrepo : options.bootstrapRepo = some appRepo)
    (hct : appRepo.credentialsType = some .USERNAME ∨ appRepo.credentialsType = some .TOKEN)
    (hval : getSecretValue world secretName region = .ok s)
    (hparse : world.jsonParse s = .error e) :
    (createSecretKey options world region secretName).outcome = .error e
    ∧ secretDocs (createSecretKey options world region secretName).trace = [] := by
  rcases hct with hct | hct <;>
    simp [createSecretKey, CreateSecretKeyRun.trace, hrepo, hval, hct, hparse, secretDocs]

/-- C5: with credentialsType SSH, the submitted Secret document's stringData
is exactly url = repoUrl and sshPrivateKey = the fetched secret value, and
nothing else. -/
theorem c5_ssh_secret_string_data (options : ArgoCDAddOnProps) (world : ExternalWorld)
    (region : String) (secretName : String) (appRepo : ArgoApplicationRepository) (s : String)
    (hrepo : options.bootstrapRepo = some appRepo)
    (hct : appRepo.credentialsType = some .SSH)
    (hval : getSecretValue world secretName region = .ok s) :
    (secretDocs (createSecretKey options world region secretName).trace).map
        (fun d => d.stringData)
      = [[("url", appRepo.repoUrl), ("sshPrivateKey", s)]] := by
  simp [createSecretKey, CreateSecretKeyRun.trace, hrepo, hval, hct, secretDocs,
    jsSpread, List.lookup]

/-- C6: with credentialsType USERNAME or TOKEN and a fetched secret value
parsing as the JSON object with the single field k = v (k a field other than
url), the submitted Secret document's stringData is exactly url = repoUrl
merged with k = v. -/
theorem c6_json_secret_string_data (options : ArgoCDAddOnProps) (world : ExternalWorld)
    (region : String) (secretName : String) (appRepo : ArgoApplicationRepository)
    (s k v : String)
    (hrepo : options.bootstrapRepo = some appRepo)
    (hct : appRepo.credentialsType = some .USERNAME ∨ appRepo.credentialsType = some .TOKEN)
    (hval : getSecretValue world secretName region = .ok s)
    (hparse : world.jsonParse s = .ok [(k, v)])
    (hk : k ≠ "url") :
    (secretDocs (createSecretKey options world region secretName).trace).map
        (fun d => d.stringData)
      = [[("url", appRepo.repoUrl), (k, v)]] := by
  have hk1 : (k == "url") = false := beq_eq_false_iff_ne.mpr hk
  have hk2 : ("url" == k) = false := beq_eq_false_iff_ne.mpr (Ne.symm hk)
  rcases hct with hct | hct <;>
    simp [createSecretKey, CreateSecretKeyRun.trace, hrepo, hval, hct, hparse, secretDocs,
      jsSpread, List.lookup, hk1, hk2]


theorem applicationDocs_append (a b : List Effect) :
    applicationDocs (a ++ b) = applicationDocs a ++ applicationDocs b :=
  List.filterMap_append a b _

theorem secretDocs_append (a b : List Effect) :
    secretDocs (a ++ b) = secretDocs a ++ secretDocs b :=
  List.filterMap_append a b _

/-- C7: every manifest submission postDeploy performs — the Application
always, and the Secret when it occurs — carries the ordering dependency on
the controller chart-install node. -/
theorem c7_manifest_dependencies (options : ArgoCDAddOnProps) (world : ExternalWorld)
    (region : String) (teams : Option (List Unit)) :
    ∀ m, Effect.submitManifest m ∈ (postDeploy options world region teams).trace →
      m.dependsOnChartNode = true := by
  intro m hm
  unfold postDeploy PostDeployResult.trace at hm
  split at hm
  · simp at hm
  · split at hm
    · simp only [List.mem_append] at hm
      rcases hm with (hm | hm) | hm
      · exact createSecretKey_deps options world region _ m (Or.inl hm)
      · rw [List.mem_singleton] at hm
        injection hm with h
        rw [h]
        rfl
      · exact createSecretKey_deps options world region _ m (Or.inr hm)
    · simp only [List.append_nil, List.mem_singleton] at hm
      injection hm with h
      rw [h]
      rfl

/-- C9: whenever bootstrapRepo is present, exactly one Application document
is submitted and its spec.source.targetRevision is the literal "HEAD",
whatever the rest of the configuration. -/
theorem c9_target_revision_head (options : ArgoCDAddOnProps) (world : ExternalWorld)
    (region : String) (teams : Option (List Unit)) (r : ArgoApplicationRepository)
    (h : options.bootstrapRepo = some r) :
    (applicationDocs (postDeploy options world region teams).trace).map
        (fun d => d.source.targetRevision) = ["HEAD"] := by
  have hpre := (createSecretKey_no_app_docs options world region (r.credentialsSecretName.getD "")).1
  have hpost := (createSecretKey_no_app_docs options world region (r.credentialsSecretName.getD "")).2
  unfold postDeploy PostDeployResult.trace
  rw [h]
  by_cases hc : jsTruthy r.credentialsSecretName
  · simp only [hc, if_true]
    rw [applicationDocs_append, applicationDocs_append, hpre, hpost]
    simp [applicationDocs, applicationSubmission]
  · simp only [hc, if_false]
    simp [applicationDocs, applicationSubmission]

/-- C10: the submitted Application is named bootstrapRepo.name when set and
"bootstrap-apps" otherwise; every submitted Secret is named
bootstrapRepo.name when set and "bootstrap-repo-secret" otherwise; when the
name is set the two coincide; and the default Secret name differs from the
"bootstrap-repo-secret1" referenced by the Install phase. -/
theorem c10_manifest_names (options : ArgoCDAddOnProps) (world : ExternalWorld)
    (region : String) (teams : Option (List Unit)) (r : ArgoApplicationRepository)
    (h : options.bootstrapRepo = some r) :
    ((applicationDocs (postDeploy options world region teams).trace).map
        (fun d => d.metadata.name) = [r.name.getD "bootstrap-apps"])
    ∧ (∀ d ∈ secretDocs (postDeploy options world region teams).trace,
        d.metadata.name = r.name.getD "bootstrap-repo-secret")
    ∧ (∀ n, r.name = some n →
        ((applicationDocs (postDeploy options world region teams).trace).map
            (fun d => d.metadata.name) = [n]
          ∧ ∀ d ∈ secretDocs (postDeploy options world region teams).trace,
              d.metadata.name = n))
    ∧ ("bootstrap-repo-secret" : String) ≠ "bootstrap-repo-secret1" := by
  have happ : (applicationDocs (postDeploy options world region teams).trace).map
      (fun d => d.metadata.name) = [r.name.getD "bootstrap-apps"] := by
    have hpre := (createSecretKey_no_app_docs options world region (r.credentialsSecretName.getD "")).1
    have hpost := (createSecretKey_no_app_docs options world region (r.credentialsSecretName.getD "")).2
    unfold postDeploy PostDeployResult.trace
    rw [h]
    by_cases hc : jsTruthy r.credentialsSecretName
    · simp only [hc, if_true]
      rw [applicationDocs_append, applicationDocs_append, hpre, hpost]
      simp [applicationDocs, applicationSubmission]
    · simp only [hc, if_false]
      simp [applicationDocs, applicationSubmission]
  have hsec : ∀ d ∈ secretDocs (postDeploy options world region teams).trace,
      d.metadata.name = r.name.getD "bootstrap-repo-secret" := by
    intro d hd
    unfold postDeploy PostDeployResult.trace at hd
    rw [h] at hd
    by_cases hc : jsTruthy r.credentialsSecretName
    · simp only [hc, if_true] at hd
      rw [secretDocs_append, secretDocs_append] at hd
      simp only [List.mem_append] at hd
      have hone : secretDocs [Effect.submitManifest (applicationSubmission options r)] = [] := by
        simp [secretDocs, applicationSubmission]
      rcases hd with (hd | hd) | hd
      · exact createSecretKey_secret_names options world region _ r h d
          (by unfold CreateSecretKeyRun.trace; rw [secretDocs_append]; exact List.mem_append_left _ hd)
      · rw [hone] at hd
        simp at hd
      · exact createSecretKey_secret_names options world region _ r h d
          (by unfold CreateSecretKeyRun.trace; rw [secretDocs_append]; exact List.mem_append_right _ hd)
    · simp only [hc, if_false] at hd
      simp [secretDocs, applicationSubmission] at hd
  refine ⟨happ, hsec, ?_, by decide⟩
  intro n hn
  rw [hn] at happ hsec
  exact ⟨happ, hsec⟩


/-- Witness for c3_binary_secret_fails: SSH options against the
binary-secret world. -/
theorem c3_binary_secret_fails_witness :
    (createSecretKey optSsh binWorld "us-east-1" "my-secret").outcome =
      .error "Invalid secret format for my-secret. Expected string value, received binary."
    ∧ secretDocs (createSecretKey optSsh binWorld "us-east-1" "my-secret").trace = [] :=
  c3_binary_secret_fails optSsh binWorld "us-east-1" "my-secret" repoSsh
    { SecretString := none, SecretBinary := some [7, 7, 7] } rfl rfl rfl rfl

/-- Witness for c4_malformed_credentials_fails: TOKEN options against a world
whose secret string is not JSON. -/
theorem c4_malformed_credentials_fails_witness :
    (createSecretKey optToken sshWorld "us-east-1" "my-secret").outcome =
      .error "SyntaxError: Unexpected token"
    ∧ secretDocs (createSecretKey optToken sshWorld "us-east-1" "my-secret").trace = [] :=
  c4_malformed_credentials_fails optToken sshWorld "us-east-1" "my-secret" repoToken
    "PRIVATE-KEY-PEM" "SyntaxError: Unexpected token" rfl (Or.inr rfl) rfl rfl

/-- Witness for c5_ssh_secret_string_data: SSH options against the SSH-key
world. -/
theorem c5_ssh_secret_string_data_witness :
    (secretDocs (createSecretKey optSsh sshWorld "us-east-1" "my-secret").trace).map
        (fun d => d.stringData)
      = [[("url", "git@example.com/apps"), ("sshPrivateKey", "PRIVATE-KEY-PEM")]] :=
  c5_ssh_secret_string_data optSsh sshWorld "us-east-1" "my-secret" repoSsh
    "PRIVATE-KEY-PEM" rfl rfl rfl

/-- Witness for c6_json_secret_string_data: TOKEN options against the world
whose secret parses as the JSON object username=bot. -/
theorem c6_json_secret_string_data_witness :
    (secretDocs (createSecretKey optToken tokenWorld "us-east-1" "my-secret").trace).map
        (fun d => d.stringData)
      = [[("url", "git@example.com/apps"), ("username", "bot")]] :=
  c6_json_secret_string_data optToken tokenWorld "us-east-1" "my-secret" repoToken
    "creds-json" "username" "bot" rfl (Or.inr rfl) rfl rfl (by decide)

/-- Witness for c7_manifest_dependencies: the Application submission of the
credential-less options carries the chart-node dependency. -/
theorem c7_manifest_dependencies_witness :
    (applicationSubmission optNoCreds repoNoCreds).dependsOnChartNode = true :=
  c7_manifest_dependencies optNoCreds sshWorld "us-east-1" (some [])
    (applicationSubmission optNoCreds repoNoCreds) (List.mem_singleton.mpr rfl)

/-- Witness for c9_target_revision_head at the SSH sample inputs. -/
theorem c9_target_revision_head_witness :
    (applicationDocs (postDeploy optSsh sshWorld "us-east-1" (some [])).trace).map
        (fun d => d.source.targetRevision) = ["HEAD"] :=
  c9_target_revision_head optSsh sshWorld "us-east-1" (some []) repoSsh rfl

/-- Witness for c10_manifest_names at the SSH sample inputs (name unset, so
the defaults "bootstrap-apps" and "bootstrap-repo-secret" are used). -/
theorem c10_manifest_names_witness :
    (applicationDocs (postDeploy optSsh sshWorld "us-east-1" (some [])).trace).map
        (fun d => d.metadata.name) = ["bootstrap-apps"]
    ∧ (secretDocs (postDeploy optSsh sshWorld "us-east-1" (some [])).trace).map
        (fun d => d.metadata.name) = ["bootstrap-repo-secret"] :=
  ⟨(c10_manifest_names optSsh sshWorld "us-east-1" (some []) repoSsh rfl).1, rfl⟩

end ArgoCD
